import Mathlib

/-!
Shallow embedding of the `Readline` line-editing engine of react-term
(source: the `Readline` class, plus the facade/question logic and the
display-geometry computation of the same class).

Conventions of the embedding:
* JS strings are modelled as `List Char`; `String.prototype.slice(a, b)`
  on in-range indices becomes `List.take`/`List.drop`.
* The renderer side effects (`_refreshLine`, `_writeToOutput`, cursor
  escape sequences, `prevRows`) write to the output stream only and do
  not change the editor state; they are omitted from the state model.
  The pure geometry computation `_getDisplayPos` is embedded separately.
* Fallible code is modelled with `Except JsErr`: evaluating an undefined
  identifier in JS throws a `ReferenceError` before any assignment of the
  enclosing statement takes effect.
* `historyIndex` is a JS number that takes the value `-1`; it is an `Int`.
-/

namespace ReactTerm

/-- JS `\w` character class: `[A-Za-z0-9_]`. -/
def isWordChar (c : Char) : Bool :=
  c.isAlphanum || c == '_'

/-- JS `\s` / `String.prototype.trim` whitespace, restricted to the ASCII
whitespace characters (the Unicode space characters play no role in the
claims under study). -/
def isJsSpace (c : Char) : Bool :=
  c == ' ' || c == '\t' || c == '\n' || c == '\r' || c == '\x0b' || c == '\x0c'

/-- `String.prototype.trim`: strip leading and trailing whitespace. -/
def jsTrim (l : List Char) : List Char :=
  ((l.dropWhile isJsSpace).reverse.dropWhile isJsSpace).reverse

/-- A JS runtime error raised by the embedded code. -/
inductive JsErr where
  /-- `ReferenceError`: an undefined identifier was evaluated. -/
  | referenceError
deriving Repr, DecidableEq

/-- A JS number argument of `_moveCursor`: the call sites pass finite
integers or `±Infinity`. -/
inductive JsNum where
  | int (i : Int)
  | posInf
  | negInf
deriving Repr, DecidableEq

/-- The mutable fields of a `Readline` instance that the editing,
history, question and lifecycle claims are about.  Output-only fields
(`prevRows`, `_sawReturnAt`, decoder caches) are not part of the model. -/
structure RLState where
  /-- `this.line`: the current edit buffer. -/
  line : List Char
  /-- `this.cursor`: codepoint offset into `line`. -/
  cursor : Nat
  /-- `this.history`: committed lines, most recent first. -/
  history : List (List Char)
  /-- `this.historyIndex`: `-1` when not browsing history. -/
  historyIndex : Int
  /-- `this.historySize`. -/
  historySize : Nat
  /-- `this._prompt`. -/
  prompt : List Char
  /-- `this._oldPrompt` (saved by `question`). -/
  oldPrompt : List Char
  /-- `this._questionCallback`, a callback modelled by an identifier. -/
  questionCallback : Option Nat
  /-- `this.paused`. -/
  paused : Bool
  /-- `this.closed`. -/
  closed : Bool
deriving Repr, DecidableEq

/-- The prompt-padding rule of `setPrompt`:
`if (!noPad && prompt.trim() === prompt) prompt += ' '`. -/
def padPrompt (p : List Char) : List Char :=
  if jsTrim p == p then p ++ [' '] else p

/-- `setPrompt(prompt, noPad)`. -/
def setPrompt (s : RLState) (p : List Char) (noPad : Bool) : RLState :=
  if noPad then { s with prompt := p } else { s with prompt := padPrompt p }

/-- The state produced by the terminal-mode branch of the constructor:
`line = ''`, `cursor = 0`, `history = []`, `historyIndex = -1`, the prompt
set through `setPrompt` (with padding).  `historySize` here is the value
the constructor *stores* (`this.historySize = historySize`), i.e. the
result of the options-path defaulting `configuredHistorySize`, which a
configuration can only drive to `HISTORY_SIZE` or a nonzero value. -/
def initialState (historySize : Nat) (prompt : List Char) : RLState :=
  { line := [], cursor := 0, history := [], historyIndex := -1
    historySize := historySize
    prompt := padPrompt prompt, oldPrompt := []
    questionCallback := none, paused := false, closed := false }

/-- `const HISTORY_SIZE = 30`. -/
def HISTORY_SIZE : Nat := 30

/-- The constructor's options-path defaulting,
`historySize = input.historySize || HISTORY_SIZE`: JS `||` yields its
right operand for *any* falsy left operand, so an absent `historySize`
and a configured `historySize: 0` both come out as `HISTORY_SIZE`. -/
def configuredHistorySize (opt : Option Nat) : Nat :=
  match opt with
  | none => HISTORY_SIZE
  | some n => if n == 0 then HISTORY_SIZE else n

/-- An interface constructed from an options object (the
`arguments.length === 1` path followed by the terminal branch), with the
`historySize` defaulting applied to the configured value. -/
def createInterfaceState (historySizeOpt : Option Nat) (prompt : List Char) :
    RLState :=
  initialState (configuredHistorySize historySizeOpt) prompt

/-- `_insertString(c)`.  In the `cursor < line.length` branch the source
evaluates `start + x + end` where `x` is not defined anywhere in scope, so
that branch throws a `ReferenceError` before `this.line` or `this.cursor`
is assigned.  The `else` branch appends and advances the cursor. -/
def _insertString (s : RLState) (c : List Char) : Except JsErr RLState :=
  if s.cursor < s.line.length then
    Except.error JsErr.referenceError
  else
    Except.ok { s with line := s.line ++ c, cursor := s.cursor + c.length }

/-- `_deleteLeft()`. -/
def _deleteLeft (s : RLState) : RLState :=
  if s.cursor > 0 && s.line.length > 0 then
    { s with
        line := s.line.take (s.cursor - 1) ++ s.line.drop s.cursor
        cursor := s.cursor - 1 }
  else s

/-- `_deleteRight()` (unconditional in the source; `slice` is total). -/
def _deleteRight (s : RLState) : RLState :=
  { s with line := s.line.take s.cursor ++ s.line.drop (s.cursor + 1) }

/-- Length of `leading.match(/([^\w\s]+|\w+|)\s*$/)[0]`.
The pattern is end-anchored and its group may be empty, so the match is
`u.drop i` for the least `i` such that `u.drop i` is a (possibly empty)
run of whitespace preceded by one maximal same-class run: the trailing
whitespace run of `u`, plus, if a non-space character precedes it, the
maximal run of its class (`\w` versus neither-word-nor-space) before it. -/
def wordLeftMatchLen (u : List Char) : Nat :=
  let r := u.reverse
  let sp := r.takeWhile isJsSpace
  let rest := r.drop sp.length
  match rest.head? with
  | none => sp.length
  | some c =>
    if isWordChar c then sp.length + (rest.takeWhile isWordChar).length
    else sp.length + (rest.takeWhile (fun d => !isWordChar d && !isJsSpace d)).length

/-- Length of `trailing.match(/^(\s+|\W+|\w+)\s*/)[0]` for nonempty
`trailing` (the source only matches under `cursor < line.length`).
Alternation order: a leading whitespace run matches `\s+` (and `\s*` then
adds nothing); a leading non-word character starts a maximal `\W+` run
(`\W` includes whitespace); a leading word character starts a maximal
`\w+` run followed by its trailing whitespace via `\s*`. -/
def wordRightMatchLen (u : List Char) : Nat :=
  match u.head? with
  | none => 0
  | some c =>
    if isJsSpace c then (u.takeWhile isJsSpace).length
    else if !isWordChar c then (u.takeWhile (fun d => !isWordChar d)).length
    else (u.takeWhile isWordChar).length
         + ((u.dropWhile isWordChar).takeWhile isJsSpace).length

/-- `_deleteWordLeft()`. -/
def _deleteWordLeft (s : RLState) : RLState :=
  if s.cursor > 0 then
    let leading := s.line.take s.cursor
    let m := wordLeftMatchLen leading
    let leading := leading.take (leading.length - m)
    { s with line := leading ++ s.line.drop s.cursor, cursor := leading.length }
  else s

/-- `_deleteWordRight()`. -/
def _deleteWordRight (s : RLState) : RLState :=
  if s.cursor < s.line.length then
    let trailing := s.line.drop s.cursor
    let m := wordRightMatchLen trailing
    { s with line := s.line.take s.cursor ++ trailing.drop m }
  else s

/-- `_deleteLineLeft()`. -/
def _deleteLineLeft (s : RLState) : RLState :=
  { s with line := s.line.drop s.cursor, cursor := 0 }

/-- `_deleteLineRight()`. -/
def _deleteLineRight (s : RLState) : RLState :=
  { s with line := s.line.take s.cursor }

/-- `_moveCursor(x)`: `this.cursor += x`, then clamp into
`[0, line.length]`.  `cursor + Infinity = Infinity` exceeds the length and
clamps to the length; `cursor - Infinity` clamps to `0`. -/
def _moveCursor (s : RLState) (x : JsNum) : RLState :=
  match x with
  | .negInf => { s with cursor := 0 }
  | .posInf => { s with cursor := s.line.length }
  | .int i =>
    let c : Int := (s.cursor : Int) + i
    let c := if c < 0 then 0
             else if c > (s.line.length : Int) then (s.line.length : Int)
             else c
    { s with cursor := c.toNat }

/-- `_historyPrev()`.  The guard `historyIndex + 1 < history.length`
makes the array access in range on well-formed states; `getD` stands for
the JS index read. -/
def _historyPrev (s : RLState) : RLState :=
  if s.historyIndex + 1 < (s.history.length : Int) then
    let l := s.history.getD (s.historyIndex + 1).toNat []
    { s with historyIndex := s.historyIndex + 1, line := l, cursor := l.length }
  else s

/-- `_historyNext()`. -/
def _historyNext (s : RLState) : RLState :=
  if s.historyIndex > 0 then
    let l := s.history.getD (s.historyIndex - 1).toNat []
    { s with historyIndex := s.historyIndex - 1, line := l, cursor := l.length }
  else if s.historyIndex == 0 then
    { s with historyIndex := -1, cursor := 0, line := [] }
  else s

/-- `_addHistory()`: returns the text the caller passes on to `_onLine`
together with the successor state.  Early returns: empty line (returns
`''`), `historySize === 0`, whitespace-only line.  Otherwise the line is
pushed (`unshift`) unless it equals the current head, the oldest entry is
popped when capacity is exceeded, and `historyIndex` resets to `-1`. -/
def _addHistory (s : RLState) : List Char × RLState :=
  if s.line.length == 0 then ([], s)
  else if s.historySize == 0 then (s.line, s)
  else if (jsTrim s.line).length == 0 then (s.line, s)
  else
    let s1 :=
      if s.history.length == 0 || !(s.history.getD 0 [] == s.line) then
        let h := s.line :: s.history
        let h := if h.length > s.historySize then h.dropLast else h
        { s with history := h }
      else s
    let s2 := { s1 with historyIndex := -1 }
    (s2.history.getD 0 [], s2)

/-- `clearLine()`: `_moveCursor(+Infinity)` then reset `line`/`cursor`
(the rendering writes are not part of the state). -/
def clearLineOp (s : RLState) : RLState :=
  let s := _moveCursor s .posInf
  { s with line := [], cursor := 0 }

/-- `_line()`: `_addHistory()`, `clearLine()`, and the committed text that
is handed to `_onLine`. -/
def _line (s : RLState) : List Char × RLState :=
  let (txt, s1) := _addHistory s
  (txt, clearLineOp s1)

/-- One editing operation of the claim C1 catalogue. -/
inductive EditOp where
  | insert (t : List Char)
  | deleteLeft
  | deleteRight
  | deleteWordLeft
  | deleteWordRight
  | deleteLineLeft
  | deleteLineRight
  | moveCursor (x : JsNum)
  | historyPrev
  | historyNext
  | commit

/-- Apply one editing operation.  The `ReferenceError` thrown by the
mid-line branch of `_insertString` propagates before any field is
assigned, so the state observed afterwards is unchanged. -/
def applyOp (s : RLState) (op : EditOp) : RLState :=
  match op with
  | .insert t =>
    match _insertString s t with
    | .ok s' => s'
    | .error _ => s
  | .deleteLeft => _deleteLeft s
  | .deleteRight => _deleteRight s
  | .deleteWordLeft => _deleteWordLeft s
  | .deleteWordRight => _deleteWordRight s
  | .deleteLineLeft => _deleteLineLeft s
  | .deleteLineRight => _deleteLineRight s
  | .moveCursor x => _moveCursor s x
  | .historyPrev => _historyPrev s
  | .historyNext => _historyNext s
  | .commit => (_line s).2

/-- The data-model invariant of the spec: the cursor stays inside the
line, and the history navigation index stays in `[-1, history.length-1]`
(`§3` of the design). -/
def WF (s : RLState) : Prop :=
  s.cursor ≤ s.line.length ∧ -1 ≤ s.historyIndex ∧
    s.historyIndex < (s.history.length : Int)

instance (s : RLState) : Decidable (WF s) := by
  unfold WF; infer_instance

/-! ### Facade: `prompt`, `question`, `_onLine` -/

/-- The state effect of `prompt()` in terminal mode with a falsy
`preserveCursor`: resume when paused, reset the cursor, render. -/
def promptOp (s : RLState) : RLState :=
  { s with paused := false, cursor := 0 }

/-- `question(query, callback)` with a function callback, the callback
modelled by an identifier: while a question is outstanding it only
re-prompts; otherwise it saves the current prompt, sets the prompt to the
query (through `setPrompt`, hence with padding), arms the callback and
prompts. -/
def question (s : RLState) (query : List Char) (cbId : Nat) : RLState :=
  if s.questionCallback.isSome then
    promptOp s
  else
    let s := { s with oldPrompt := s.prompt }
    let s := setPrompt s query false
    let s := { s with questionCallback := some cbId }
    promptOp s

/-- Where `_onLine` delivers a committed line. -/
inductive LineOutcome where
  /-- The outstanding question callback is invoked with the line. -/
  | toCallback (cbId : Nat) (l : List Char)
  /-- A `line` event is emitted. -/
  | lineEvent (l : List Char)
deriving Repr, DecidableEq

/-- `_onLine(line)`: an outstanding question callback consumes the line
(clearing itself and restoring the saved prompt through `setPrompt`);
otherwise the line is emitted as a `line` event. -/
def _onLine (s : RLState) (l : List Char) : RLState × LineOutcome :=
  match s.questionCallback with
  | some cb =>
    let s := { s with questionCallback := none }
    let s := setPrompt s s.oldPrompt false
    (s, .toCallback cb l)
  | none => (s, .lineEvent l)

/-! ### Interrupt (ctrl-c) -/

/-- A signal emitted by `_ttyWrite`. -/
inductive SigEv where
  | sigint
deriving Repr, DecidableEq

/-- `close()`: idempotent; flips `closed` (and emits `close` once). -/
def closeOp (s : RLState) : RLState :=
  if s.closed then s else { s with closed := true }

/-- The `case 'c':` arm of the `key.ctrl` switch in `_ttyWrite`: emit
`SIGINT` when a listener is registered, otherwise `close()`.  The arm has
no `break`, so control falls through into `case 'h':` and runs
`this._deleteLeft()` as well. -/
def handleCtrlC (s : RLState) (hasSigintListener : Bool) : RLState × Option SigEv :=
  let (s1, ev) :=
    if hasSigintListener then (s, some SigEv.sigint) else (closeOp s, none)
  (_deleteLeft s1, ev)

/-! ### crlfDelay -/

/-- `const MAX_DELAY = 100`. -/
def MAX_DELAY : Nat := 100

/-- `const MIN_DELAY = 2000`. -/
def MIN_DELAY : Nat := 2000

/-- The constructor's stored delay,
`Math.min(MIN_DELAY, Math.min(MAX_DELAY, crlfDelay >>> 0))`, as a
function of the unsigned-32-bit value `crlfDelay >>> 0` (in the options
path `crlfDelay` itself defaults to `200` when falsy). -/
def crlfDelayStored (x : Nat) : Nat :=
  min MIN_DELAY (min MAX_DELAY x)

/-! ### Display geometry: `_getDisplayPos` -/

/-- A display position: zero-based column and row. -/
structure DisplayPos where
  cols : Nat
  rows : Nat
deriving Repr, DecidableEq

/-- The loop of `_getDisplayPos` over the codepoints of the (control-
stripped) string, carrying `(offset, row)`.  `fw` stands for the external
`isFullWidthCodePoint` width classifier (from `Util`, outside this
class): a newline resets the offset and bumps the row; a full-width
codepoint first gets one padding column when `(offset + 1) % col === 0`,
then advances the offset by 2; anything else advances it by 1. -/
def displayLoop (col : Nat) (fw : Nat → Bool) : List Nat → Nat × Nat → Nat × Nat
  | [], st => st
  | code :: rest, (offset, row) =>
    if code == 0x0a then
      displayLoop col fw rest (0, row + 1)
    else if fw code then
      let offset := if (offset + 1) % col == 0 then offset + 1 else offset
      displayLoop col fw rest (offset + 2, row)
    else
      displayLoop col fw rest (offset + 1, row)

/-- `_getDisplayPos(str)` for a finite column count `col`, on the
codepoints of the already-stripped string:
`cols = offset % col`, `rows = row + (offset - cols) / col`. -/
def _getDisplayPos (col : Nat) (fw : Nat → Bool) (cps : List Nat) : DisplayPos :=
  let (offset, row) := displayLoop col fw cps (0, 0)
  let cols := offset % col
  { cols := cols, rows := row + (offset - cols) / col }

/-! ### Escape-sequence decoding and the escape timeout -/

/-- A named special key recognized through a CSI sequence. -/
inductive KeyName where
  | up
  | down
  | right
  | left
deriving Repr, DecidableEq

/-- A key event produced by the decoder. -/
inductive KeyEv where
  /-- A plain character (no symbolic name). -/
  | plain (c : Char)
  /-- A meta-modified character (`ESC` prefix). -/
  | meta (c : Char)
  /-- A named key. -/
  | named (n : KeyName)
  /-- A raw/literal flush of buffered bytes. -/
  | raw (seq : List Char)
deriving Repr, DecidableEq

/-- The decoder's suspend points. -/
inductive DecoderState where
  /-- No buffered escape. -/
  | start
  /-- Buffered `ESC`. -/
  | sawEsc
  /-- Buffered `ESC [`. -/
  | sawCsi
deriving Repr, DecidableEq

/-- What the driver feeds to the decoder: a character, or the empty
string sent when the escape timeout fires. -/
inductive EscInput where
  | ch (c : Char)
  | timeoutFlush
deriving Repr, DecidableEq

/-- Modelled from the spec: the `emitKeys` generator (the escape-sequence
finite-state machine lives in the `Util` module, which is not among the
provided sources; §4.1 of the design specifies it).  A leading escape is
buffered and deferred; a continuation `[` continues a CSI sequence whose
terminator `A`/`B`/`C`/`D` yields one named arrow-key event; any other
continuation resolves as a meta-modified key; the empty-string feed of
the timeout flushes the buffered bytes as one raw/literal event; an
unrecognized-but-terminated sequence also flushes as raw data. -/
def emitKeysStep : DecoderState → EscInput → DecoderState × List KeyEv
  | .start, .ch c =>
    if c == '\x1b' then (.sawEsc, []) else (.start, [.plain c])
  | .start, .timeoutFlush => (.start, [])
  | .sawEsc, .ch c =>
    if c == '[' then (.sawCsi, []) else (.start, [.meta c])
  | .sawEsc, .timeoutFlush => (.start, [.raw ['\x1b']])
  | .sawCsi, .ch c =>
    if c == 'A' then (.start, [.named .up])
    else if c == 'B' then (.start, [.named .down])
    else if c == 'C' then (.start, [.named .right])
    else if c == 'D' then (.start, [.named .left])
    else (.start, [.raw ['\x1b', '[', c]])
  | .sawCsi, .timeoutFlush => (.start, [.raw ['\x1b', '[']])

/-- Driver state of `emitKeypressEvents`'s `onData`: the decoder's state
and whether an escape timeout is currently armed. -/
structure KPState where
  dec : DecoderState
  timerArmed : Bool
deriving Repr, DecidableEq

/-- The driver's initial state (fresh decoder, no timer). -/
def initKP : KPState := { dec := .start, timerArmed := false }

/-- An event reaching the driver: a chunk of decoded characters, or the
armed timeout firing. -/
inductive StreamEv where
  | data (chars : List Char)
  | timerFires
deriving Repr, DecidableEq

/-- Feed the characters of one chunk to the decoder, collecting events. -/
def feedChars (d : DecoderState) : List Char → DecoderState × List KeyEv
  | [] => (d, [])
  | c :: rest =>
    let (d1, evs) := emitKeysStep d (.ch c)
    let (d2, evs') := feedChars d1 rest
    (d2, evs ++ evs')

/-- One step of `onData` / the timeout callback, from the source of
`emitKeypressEvents`: a nonempty data chunk first cancels any pending
timeout (`clearTimeout`), feeds each character to the decoder, and arms
the timeout exactly when the chunk's last character is `ESC`
(`r[i] === '\x1b' && i + 1 === r.length`); an empty decode skips the
whole block (and so does not cancel the timeout).  The timeout firing
while armed feeds the empty string to the decoder; a cancelled timeout
does not fire. -/
def kpStep (st : KPState) (ev : StreamEv) : KPState × List KeyEv :=
  match ev with
  | .data cs =>
    if cs.isEmpty then (st, [])
    else
      let (d, evs) := feedChars st.dec cs
      ({ dec := d, timerArmed := cs.getLast? == some '\x1b' }, evs)
  | .timerFires =>
    if st.timerArmed then
      let (d, evs) := emitKeysStep st.dec .timeoutFlush
      ({ dec := d, timerArmed := false }, evs)
    else (st, [])

/-- Run the driver over a sequence of stream events, collecting all key
events in order. -/
def runTrace (st : KPState) : List StreamEv → KPState × List KeyEv
  | [] => (st, [])
  | ev :: rest =>
    let (st1, evs) := kpStep st ev
    let (st2, evs') := runTrace st1 rest
    (st2, evs ++ evs')

/-! ## Theorems -/

/-- Typing a line at a fresh (empty) buffer and committing it: insert the
text (the cursor sits at the end, so the append branch of `_insertString`
runs) and then `_line`. -/
def commitLine (s : RLState) (t : List Char) : RLState :=
  applyOp (applyOp s (.insert t)) .commit

/-- C10: with `historyIndex = -1` (not browsing history), `_historyNext`
matches neither the `> 0` branch nor the `=== 0` branch and is a strict
no-op: line, cursor, navigation index and history are all unchanged. -/
theorem historyNext_noop_when_not_browsing (s : RLState)
    (h : s.historyIndex = -1) : _historyNext s = s := by
  unfold _historyNext
  rw [h]
  norm_num

theorem historyNext_noop_witness :
    (initialState 30 ['>']).historyIndex = -1 ∧
      _historyNext (initialState 30 ['>']) = initialState 30 ['>'] :=
  ⟨rfl, historyNext_noop_when_not_browsing (initialState 30 ['>']) rfl⟩

/-- Supporting lemma: the `_addHistory` method itself honors
`this.historySize === 0` by an early return — a commit (`_line`) on a
state whose *stored* size is `0` never mutates the history list, and the
committed text handed to `_onLine` is still the line buffer.  No
construction path produces such a state (see
`historySize_zero_config_still_records`): the constructor's `||`
defaulting turns a configured `0` into `HISTORY_SIZE`, which is exactly
why the size-0 configuration fails to disable history. -/
theorem historySize_zero_state_no_push (s : RLState)
    (h : s.historySize = 0) :
    (_line s).2.history = s.history ∧ (_line s).1 = s.line := by
  unfold _line _addHistory clearLineOp _moveCursor
  rw [h]
  by_cases hl : s.line.length = 0
  · have hnil : s.line = [] := List.eq_nil_of_length_eq_zero hl
    simp [hnil]
  · simp [hl]

theorem historySize_zero_state_witness :
    (_line { initialState 0 ['>'] with line := ['a'], cursor := 1 }).2.history
        = ({ initialState 0 ['>'] with line := ['a'], cursor := 1 } :
            RLState).history ∧
      (_line { initialState 0 ['>'] with line := ['a'], cursor := 1 }).1
        = ({ initialState 0 ['>'] with line := ['a'], cursor := 1 } :
            RLState).line :=
  historySize_zero_state_no_push
    { initialState 0 ['>'] with line := ['a'], cursor := 1 } rfl

/-- C4: an interface *configured* with `historySize: 0` does not have
history disabled.  The constructor's defaulting
`historySize = input.historySize || HISTORY_SIZE` treats the configured
`0` as falsy and stores `30`, so `_addHistory`'s `historySize === 0`
early return is unreachable through construction: committing `"a"` on the
0-configured interface pushes it, mutating the history list — contrary to
the claim (and to the spec's §4.4 intent, which the method-level early
return shows the code meant to implement). -/
theorem historySize_zero_config_still_records :
    (createInterfaceState (some 0) ['>']).historySize = 30 ∧
      (commitLine (createInterfaceState (some 0) ['>']) ['a']).history
        = [['a']] ∧
      (commitLine (createInterfaceState (some 0) ['>']) ['a']).history
        ≠ (createInterfaceState (some 0) ['>']).history := by
  refine ⟨rfl, by decide, by decide⟩

/-- C2: the mid-line branch of `_insertString` evaluates the undefined
identifier `x` (`this.line = start + x + end`) and throws a
`ReferenceError` instead of inserting, at the concrete state
`line = "ab"`, `cursor = 1`, input `"X"`; the claimed behavior (buffer
`"aXb"`, cursor `2`) does not occur.  At the end of the line
(`cursor = 2`) the append branch does behave as the claim states. -/
theorem insertString_midline_reference_error :
    _insertString { initialState 30 ['>'] with line := ['a', 'b'], cursor := 1 }
        ['X'] = Except.error JsErr.referenceError ∧
      _insertString { initialState 30 ['>'] with line := ['a', 'b'], cursor := 2 }
        ['X'] = Except.ok { initialState 30 ['>'] with
          line := ['a', 'b', 'X'], cursor := 3 } := by
  constructor <;> rfl

/-- C8: the `case 'c'` arm of `_ttyWrite` emits `SIGINT` when a listener
is registered (leaving the session open) and closes the session
otherwise — but, lacking a `break`, it falls through into `case 'h'` and
runs `_deleteLeft`, editing the buffer and cursor: from `line = "ab"`,
`cursor = 2`, both branches leave `line = "a"`, `cursor = 1`. -/
theorem ctrl_c_fallthrough_edits_line :
    (handleCtrlC { initialState 30 ['>'] with line := ['a', 'b'], cursor := 2 }
        true).2 = some SigEv.sigint ∧
      (handleCtrlC { initialState 30 ['>'] with line := ['a', 'b'], cursor := 2 }
        true).1.closed = false ∧
      (handleCtrlC { initialState 30 ['>'] with line := ['a', 'b'], cursor := 2 }
        false).2 = none ∧
      (handleCtrlC { initialState 30 ['>'] with line := ['a', 'b'], cursor := 2 }
        false).1.closed = true ∧
      (handleCtrlC { initialState 30 ['>'] with line := ['a', 'b'], cursor := 2 }
        true).1.line = ['a'] ∧
      (handleCtrlC { initialState 30 ['>'] with line := ['a', 'b'], cursor := 2 }
        true).1.cursor = 1 ∧
      (handleCtrlC { initialState 30 ['>'] with line := ['a', 'b'], cursor := 2 }
        false).1.line = ['a'] := by
  refine ⟨rfl, rfl, rfl, rfl, rfl, rfl, rfl⟩

/-- C9: the stored delay `min MIN_DELAY (min MAX_DELAY x)` (with
`MIN_DELAY = 2000 > MAX_DELAY = 100`) collapses to `min 100 x`, which is
the clamp into `[0, 100]` over the unsigned inputs produced by
`crlfDelay >>> 0`: with `lo = 0`, `hi = 100`, values below `lo` (there
are none) are raised to `lo`, values above `hi` are lowered to `hi`, and
the result always lies in `[lo, hi]`. -/
theorem crlfDelay_clamped_bounded_range :
    ∃ lo hi : Nat, lo < hi ∧
      (∀ x, x < lo → crlfDelayStored x = lo) ∧
      (∀ x, hi < x → crlfDelayStored x = hi) ∧
      (∀ x, lo ≤ crlfDelayStored x ∧ crlfDelayStored x ≤ hi) := by
  refine ⟨0, 100, by norm_num, ?_, ?_, ?_⟩ <;>
    intro x <;> unfold crlfDelayStored MIN_DELAY MAX_DELAY <;> omega

/-- C6: escape-timeout disambiguation, over the driver of
`emitKeypressEvents` and the decoder.  A lone `ESC` chunk followed by the
timeout firing yields exactly one raw/literal event (and a stale second
fire adds nothing); `ESC [ A` — whether in one chunk, or as `ESC` then
`[ A` arriving before the timeout (which the new chunk cancels, so a
late fire adds nothing) — yields exactly one named key event and no raw
flush. -/
theorem escape_timeout_events :
    (runTrace initKP [.data ['\x1b'], .timerFires]).2 = [KeyEv.raw ['\x1b']] ∧
      (runTrace initKP [.data ['\x1b'], .timerFires, .timerFires]).2
        = [KeyEv.raw ['\x1b']] ∧
      (runTrace initKP [.data ['\x1b', '[', 'A']]).2 = [KeyEv.named .up] ∧
      (runTrace initKP [.data ['\x1b', '[', 'A'], .timerFires]).2
        = [KeyEv.named .up] ∧
      (runTrace initKP [.data ['\x1b'], .data ['[', 'A'], .timerFires]).2
        = [KeyEv.named .up] := by
  refine ⟨rfl, rfl, rfl, rfl, rfl⟩

/-- C3: the history store is bounded and most-recent-first: (1) a push
through `_addHistory` keeps `history.length ≤ historySize`; (2) a push at
capacity prepends the line and evicts the oldest entry (`pop`); (3) a
line equal to the current head leaves the history unchanged; (4) with
`historySize = 2`, committing `"a"`, `"b"`, `"c"` in sequence yields
history `[["c"], ["b"]]`, with `"a"` evicted. -/
theorem history_bounded_evict_dedup_scenario :
    (∀ s : RLState, s.history.length ≤ s.historySize →
        (_addHistory s).2.history.length ≤ s.historySize) ∧
      (∀ s : RLState, 0 < s.historySize → s.history.length = s.historySize →
        s.line ≠ [] → jsTrim s.line ≠ [] → s.history.getD 0 [] ≠ s.line →
        (_addHistory s).2.history = s.line :: s.history.dropLast) ∧
      (∀ s : RLState, s.history.head? = some s.line →
        (_addHistory s).2.history = s.history) ∧
      (commitLine (commitLine (commitLine (initialState 2 ['>']) ['a']) ['b'])
          ['c']).history = [['c'], ['b']] := by
  refine ⟨?_, ?_, ?_, by decide⟩
  · intro s hb
    unfold _addHistory
    dsimp only
    split_ifs <;> simp_all [List.length_dropLast, List.length_cons]
  · intro s hsz hcap hne htrim hhead
    have hhist : s.history ≠ [] := by
      intro hnil
      rw [hnil] at hcap
      simp only [List.length_nil] at hcap
      omega
    have h1 : (s.line.length == 0) = false :=
      beq_eq_false_iff_ne.mpr (fun hx => hne (List.eq_nil_of_length_eq_zero hx))
    have h2 : (s.historySize == 0) = false :=
      beq_eq_false_iff_ne.mpr (by omega)
    have h3 : ((jsTrim s.line).length == 0) = false :=
      beq_eq_false_iff_ne.mpr
        (fun hx => htrim (List.eq_nil_of_length_eq_zero hx))
    have h4 : (s.history.length == 0) = false :=
      beq_eq_false_iff_ne.mpr
        (fun hx => hhist (List.eq_nil_of_length_eq_zero hx))
    have h5 : (s.history.getD 0 [] == s.line) = false :=
      beq_eq_false_iff_ne.mpr hhead
    have h6 : s.historySize < s.history.length + 1 := by omega
    unfold _addHistory
    simp only [h1, h2, h3, h4, h5, Bool.false_or, Bool.not_false,
      Bool.false_eq_true, if_false, if_true, ite_true, ite_false]
    simp only [List.length_cons, h6, if_true, ite_true]
    exact List.dropLast_cons_of_ne_nil hhist
  · intro s hhead
    have hhist : s.history ≠ [] := by
      intro hnil
      rw [hnil] at hhead
      simp at hhead
    have h4 : (s.history.length == 0) = false :=
      beq_eq_false_iff_ne.mpr
        (fun hx => hhist (List.eq_nil_of_length_eq_zero hx))
    have h5 : (s.history.getD 0 [] == s.line) = true := by
      rcases hh : s.history with _ | ⟨a, t⟩
      · exact absurd hh hhist
      · rw [hh] at hhead
        simp only [List.head?_cons, Option.some.injEq] at hhead
        simp [hh, hhead]
    unfold _addHistory
    split_ifs with e1 e2 e3 e4 <;> try rfl
    rw [h4, h5] at e4
    simp at e4

/-- C5, as the code has it: the claim's deliverables hold except that the
prompt is restored *through the padding setter*.  With an outstanding
question armed by `question` on a state with no pending question: the
next committed line is delivered to the question callback (not emitted as
a `line` event), the callback is cleared so a second line is an ordinary
`line` event, the prompt after resolution is `padPrompt` of the
pre-question prompt — hence exactly the pre-question prompt whenever that
prompt was a fixed point of the padding rule — and re-invoking `question`
while one is outstanding changes neither the callback, the prompt, the
saved prompt, the buffer nor the history (it only re-prompts). -/
theorem question_oneshot_prompt_restore (s : RLState) (q l : List Char)
    (cb : Nat) (h : s.questionCallback = none) :
    (question s q cb).questionCallback = some cb ∧
      (_onLine (question s q cb) l).2 = LineOutcome.toCallback cb l ∧
      (_onLine (question s q cb) l).1.questionCallback = none ∧
      (∀ l2, (_onLine (_onLine (question s q cb) l).1 l2).2
        = LineOutcome.lineEvent l2) ∧
      (_onLine (question s q cb) l).1.prompt = padPrompt s.prompt ∧
      (padPrompt s.prompt = s.prompt →
        (_onLine (question s q cb) l).1.prompt = s.prompt) ∧
      (∀ q2 cb2,
        (question (question s q cb) q2 cb2).questionCallback = some cb ∧
        (question (question s q cb) q2 cb2).prompt = (question s q cb).prompt ∧
        (question (question s q cb) q2 cb2).oldPrompt
          = (question s q cb).oldPrompt ∧
        (question (question s q cb) q2 cb2).line = (question s q cb).line ∧
        (question (question s q cb) q2 cb2).history
          = (question s q cb).history) := by
  have hq : question s q cb
      = { s with oldPrompt := s.prompt, prompt := padPrompt q,
                 questionCallback := some cb, paused := false, cursor := 0 } := by
    simp [question, setPrompt, promptOp, h]
  have ho : _onLine (question s q cb) l
      = ({ s with oldPrompt := s.prompt, prompt := padPrompt s.prompt,
                  questionCallback := none, paused := false, cursor := 0 },
         LineOutcome.toCallback cb l) := by
    rw [hq]
    rfl
  refine ⟨by rw [hq], by rw [ho], by rw [ho], ?_, by rw [ho], ?_, ?_⟩
  · intro l2
    rw [ho]
    rfl
  · intro hp
    rw [ho]
    exact hp
  · intro q2 cb2
    rw [hq]
    exact ⟨rfl, rfl, rfl, rfl, rfl⟩

theorem question_oneshot_witness :
    (question (initialState 30 ['>'])
        ['A', 'g', 'e', '?', ' '] 7).questionCallback = some 7 ∧
      (_onLine (question (initialState 30 ['>']) ['A', 'g', 'e', '?', ' '] 7)
        ['4', '2']).2 = LineOutcome.toCallback 7 ['4', '2'] ∧
      (_onLine (question (initialState 30 ['>']) ['A', 'g', 'e', '?', ' '] 7)
        ['4', '2']).1.questionCallback = none ∧
      (∀ l2, (_onLine (_onLine (question (initialState 30 ['>'])
          ['A', 'g', 'e', '?', ' '] 7) ['4', '2']).1 l2).2
        = LineOutcome.lineEvent l2) ∧
      (_onLine (question (initialState 30 ['>']) ['A', 'g', 'e', '?', ' '] 7)
          ['4', '2']).1.prompt
        = padPrompt (initialState 30 ['>']).prompt ∧
      (padPrompt (initialState 30 ['>']).prompt
          = (initialState 30 ['>']).prompt →
        (_onLine (question (initialState 30 ['>']) ['A', 'g', 'e', '?', ' '] 7)
          ['4', '2']).1.prompt = (initialState 30 ['>']).prompt) ∧
      (∀ q2 cb2,
        (question (question (initialState 30 ['>'])
            ['A', 'g', 'e', '?', ' '] 7) q2 cb2).questionCallback = some 7 ∧
        (question (question (initialState 30 ['>'])
            ['A', 'g', 'e', '?', ' '] 7) q2 cb2).prompt
          = (question (initialState 30 ['>'])
              ['A', 'g', 'e', '?', ' '] 7).prompt ∧
        (question (question (initialState 30 ['>'])
            ['A', 'g', 'e', '?', ' '] 7) q2 cb2).oldPrompt
          = (question (initialState 30 ['>'])
              ['A', 'g', 'e', '?', ' '] 7).oldPrompt ∧
        (question (question (initialState 30 ['>'])
            ['A', 'g', 'e', '?', ' '] 7) q2 cb2).line
          = (question (initialState 30 ['>'])
              ['A', 'g', 'e', '?', ' '] 7).line ∧
        (question (question (initialState 30 ['>'])
            ['A', 'g', 'e', '?', ' '] 7) q2 cb2).history
          = (question (initialState 30 ['>'])
              ['A', 'g', 'e', '?', ' '] 7).history) :=
  question_oneshot_prompt_restore (initialState 30 ['>'])
    ['A', 'g', 'e', '?', ' '] ['4', '2'] 7 rfl

/-- C5's literal reading fails on the code: the prompt in effect before
the question is *not* always restored.  A prompt set with padding
disabled (`setPrompt(">", true)`, a bare `">"`, no surrounding
whitespace) is restored through `setPrompt`'s padding path after the
question resolves and comes back as `"> "`. -/
theorem question_prompt_restore_counterexample :
    (question (setPrompt (initialState 30 ['>']) ['>'] true)
        ['A', 'g', 'e', '?', ' '] 7).questionCallback = some 7 ∧
      (_onLine (question (setPrompt (initialState 30 ['>']) ['>'] true)
          ['A', 'g', 'e', '?', ' '] 7) ['4', '2']).2
        = LineOutcome.toCallback 7 ['4', '2'] ∧
      (setPrompt (initialState 30 ['>']) ['>'] true).prompt = ['>'] ∧
      (_onLine (question (setPrompt (initialState 30 ['>']) ['>'] true)
          ['A', 'g', 'e', '?', ' '] 7) ['4', '2']).1.prompt = ['>', ' '] ∧
      (_onLine (question (setPrompt (initialState 30 ['>']) ['>'] true)
          ['A', 'g', 'e', '?', ' '] 7) ['4', '2']).1.prompt
        ≠ (setPrompt (initialState 30 ['>']) ['>'] true).prompt := by
  refine ⟨rfl, rfl, rfl, rfl, by decide⟩

/-! ### C1: the cursor invariant -/

lemma wf_insert (s : RLState) (t : List Char) (h : WF s) :
    WF (applyOp s (.insert t)) := by
  obtain ⟨h1, h2, h3⟩ := h
  unfold applyOp _insertString
  split_ifs with hc
  · exact ⟨h1, h2, h3⟩
  · refine ⟨?_, h2, h3⟩
    simp only [List.length_append]
    omega

lemma wf_deleteLeft (s : RLState) (h : WF s) : WF (_deleteLeft s) := by
  obtain ⟨h1, h2, h3⟩ := h
  unfold _deleteLeft
  split_ifs with hc
  · refine ⟨?_, h2, h3⟩
    simp only [List.length_append, List.length_take, List.length_drop]
    omega
  · exact ⟨h1, h2, h3⟩

lemma wf_deleteRight (s : RLState) (h : WF s) : WF (_deleteRight s) := by
  obtain ⟨h1, h2, h3⟩ := h
  refine ⟨?_, h2, h3⟩
  simp only [_deleteRight, List.length_append, List.length_take,
    List.length_drop]
  omega

lemma wf_deleteWordLeft (s : RLState) (h : WF s) : WF (_deleteWordLeft s) := by
  obtain ⟨h1, h2, h3⟩ := h
  unfold _deleteWordLeft
  split_ifs with hc
  · refine ⟨?_, h2, h3⟩
    simp only [List.length_append]
    omega
  · exact ⟨h1, h2, h3⟩

lemma wf_deleteWordRight (s : RLState) (h : WF s) : WF (_deleteWordRight s) := by
  obtain ⟨h1, h2, h3⟩ := h
  unfold _deleteWordRight
  split_ifs with hc
  · refine ⟨?_, h2, h3⟩
    simp only [List.length_append, List.length_take, List.length_drop]
    omega
  · exact ⟨h1, h2, h3⟩

lemma wf_deleteLineLeft (s : RLState) (h : WF s) : WF (_deleteLineLeft s) := by
  obtain ⟨_, h2, h3⟩ := h
  exact ⟨Nat.zero_le _, h2, h3⟩

lemma wf_deleteLineRight (s : RLState) (h : WF s) : WF (_deleteLineRight s) := by
  obtain ⟨h1, h2, h3⟩ := h
  refine ⟨?_, h2, h3⟩
  simp only [_deleteLineRight, List.length_take]
  omega

lemma wf_moveCursor (s : RLState) (h : WF s) (x : JsNum) :
    WF (_moveCursor s x) := by
  obtain ⟨h1, h2, h3⟩ := h
  cases x with
  | negInf => exact ⟨Nat.zero_le _, h2, h3⟩
  | posInf => exact ⟨Nat.le_refl _, h2, h3⟩
  | int i =>
    refine ⟨?_, h2, h3⟩
    simp only [_moveCursor]
    split_ifs <;> omega

lemma wf_historyPrev (s : RLState) (h : WF s) : WF (_historyPrev s) := by
  obtain ⟨h1, h2, h3⟩ := h
  unfold _historyPrev
  split_ifs with hc
  · refine ⟨?_, ?_, ?_⟩ <;> dsimp only
    · exact Nat.le_refl _
    · omega
    · exact hc
  · exact ⟨h1, h2, h3⟩

lemma wf_historyNext (s : RLState) (h : WF s) : WF (_historyNext s) := by
  obtain ⟨h1, h2, h3⟩ := h
  unfold _historyNext
  split_ifs with hc hc0
  · refine ⟨?_, ?_, ?_⟩ <;> dsimp only
    · exact Nat.le_refl _
    · omega
    · omega
  · refine ⟨?_, ?_, ?_⟩ <;> dsimp only
    · exact Nat.zero_le _
    · omega
    · omega
  · exact ⟨h1, h2, h3⟩

lemma wf_commit (s : RLState) (h : WF s) : WF (applyOp s .commit) := by
  obtain ⟨h1, h2, h3⟩ := h
  unfold applyOp _line clearLineOp _moveCursor _addHistory
  dsimp only
  split_ifs <;> refine ⟨Nat.zero_le _, ?_, ?_⟩ <;> dsimp only <;> omega

/-- C1: from any state satisfying the data-model invariant (`0 ≤ cursor ≤
len(line)`, navigation index in `[-1, history.length - 1]`), every editing
operation — insert (whose mid-line branch throws before mutating, leaving
the state unchanged), the four delete variants, the two line kills,
`moveCursor` with any delta including `±Infinity`, history navigation and
commit — yields a state satisfying the invariant again; in particular
`_moveCursor` always leaves the cursor in `[0, len(line)]` (the lower
bound is inherent in the `Nat` cursor of the model: the source clamps
negatives to `0`). -/
theorem edit_ops_preserve_cursor_invariant (s : RLState) (op : EditOp)
    (h : WF s) :
    WF (applyOp s op) ∧
      (applyOp s op).cursor ≤ (applyOp s op).line.length ∧
      (∀ x, (_moveCursor s x).cursor ≤ (_moveCursor s x).line.length) := by
  have hwf : WF (applyOp s op) := by
    cases op with
    | insert t => exact wf_insert s t h
    | deleteLeft => exact wf_deleteLeft s h
    | deleteRight => exact wf_deleteRight s h
    | deleteWordLeft => exact wf_deleteWordLeft s h
    | deleteWordRight => exact wf_deleteWordRight s h
    | deleteLineLeft => exact wf_deleteLineLeft s h
    | deleteLineRight => exact wf_deleteLineRight s h
    | moveCursor x => exact wf_moveCursor s h x
    | historyPrev => exact wf_historyPrev s h
    | historyNext => exact wf_historyNext s h
    | commit => exact wf_commit s h
  exact ⟨hwf, hwf.1, fun x => (wf_moveCursor s h x).1⟩

/-! ### C7: wide-codepoint wrap padding -/

lemma displayLoop_narrow_run (col : Nat) (fw : Nat → Bool) (ns : List Nat)
    (o r : Nat) (h : ∀ c ∈ ns, fw c = false ∧ c ≠ 0x0a) :
    displayLoop col fw ns (o, r) = (o + ns.length, r) := by
  induction ns generalizing o with
  | nil => simp [displayLoop]
  | cons c rest ih =>
    have hc := h c (by simp)
    have hrest : ∀ d ∈ rest, fw d = false ∧ d ≠ 0x0a :=
      fun d hd => h d (by simp [hd])
    have hne : (c == 0x0a) = false := beq_eq_false_iff_ne.mpr hc.2
    simp only [displayLoop, hne, hc.1, Bool.false_eq_true, if_false,
      ite_false]
    rw [ih (o + 1) hrest]
    simp only [List.length_cons, Prod.mk.injEq, and_true]
    omega

lemma displayLoop_append (col : Nat) (fw : Nat → Bool) (l1 l2 : List Nat)
    (st : Nat × Nat) :
    displayLoop col fw (l1 ++ l2) st
      = displayLoop col fw l2 (displayLoop col fw l1 st) := by
  induction l1 generalizing st with
  | nil => simp [displayLoop]
  | cons c rest ih =>
    obtain ⟨o, r⟩ := st
    simp only [List.cons_append, displayLoop]
    split_ifs <;> simp only [List.append_eq] <;> rw [ih]

theorem wide_codepoint_wrap_padding (w : Nat) (fw : Nat → Bool)
    (ns : List Nat) (wc : Nat) (hw : 1 ≤ w)
    (hlen : ns.length = w - 1)
    (hnarrow : ∀ c ∈ ns, fw c = false ∧ c ≠ 0x0a)
    (hwide : fw wc = true) (hwc : wc ≠ 0x0a) :
    displayLoop w fw ns (0, 0) = (w - 1, 0) ∧
      (w - 1 + 1) % w = 0 ∧
      displayLoop w fw (ns ++ [wc]) (0, 0) = (w - 1 + 1 + 2, 0) ∧
      (∀ o r, (displayLoop w fw [wc] (o, r)).1
        = if (o + 1) % w = 0 then o + 3 else o + 2) ∧
      _getDisplayPos w fw (ns ++ [wc]) = ⟨(w + 2) % w, (w + 2) / w⟩ := by
  have hsub : w - 1 + 1 = w := Nat.sub_add_cancel hw
  have hwcne : (wc == 0x0a) = false := beq_eq_false_iff_ne.mpr hwc
  have hpre : displayLoop w fw ns (0, 0) = (w - 1, 0) := by
    rw [displayLoop_narrow_run w fw ns 0 0 hnarrow, hlen]
    simp
  have hstep : ∀ o r, (displayLoop w fw [wc] (o, r)).1
      = if (o + 1) % w = 0 then o + 3 else o + 2 := by
    intro o r
    simp only [displayLoop, hwcne, hwide, Bool.false_eq_true, if_false,
      ite_false, if_true, ite_true]
    by_cases hcase : (o + 1) % w = 0
    · simp [hcase]
    · have hb : ((o + 1) % w == 0) = false := beq_eq_false_iff_ne.mpr hcase
      simp [hb, hcase]
  have hmod : (w - 1 + 1) % w = 0 := by
    rw [hsub]
    exact Nat.mod_self w
  have hfull : displayLoop w fw (ns ++ [wc]) (0, 0) = (w - 1 + 1 + 2, 0) := by
    rw [displayLoop_append, hpre]
    simp only [displayLoop, hwcne, hwide, Bool.false_eq_true, if_false,
      ite_false, if_true, ite_true, hmod]
    simp [hmod]
  refine ⟨hpre, hmod, hfull, hstep, ?_⟩
  unfold _getDisplayPos
  rw [hfull]
  have hw2 : w - 1 + 1 + 2 = w + 2 := by omega
  rw [hw2]
  have hdiv : (w + 2 - (w + 2) % w) / w = (w + 2) / w := by
    have hmd := Nat.mod_add_div (w + 2) w
    have : w + 2 - (w + 2) % w = w * ((w + 2) / w) := by omega
    rw [this]
    exact Nat.mul_div_cancel_left _ (by omega)
  simp only [Nat.zero_add]
  rw [hdiv]

theorem wide_codepoint_wrap_witness :
    (1 ≤ 3 ∧ ([97, 98] : List Nat).length = 3 - 1 ∧
      (∀ c ∈ ([97, 98] : List Nat),
        (fun cp => cp == 0x4e00) c = false ∧ c ≠ 0x0a) ∧
      (fun cp => cp == 0x4e00) 0x4e00 = true ∧ (0x4e00 : Nat) ≠ 0x0a) ∧
      (displayLoop 3 (fun cp => cp == 0x4e00) [97, 98] (0, 0) = (3 - 1, 0) ∧
        (3 - 1 + 1) % 3 = 0 ∧
        displayLoop 3 (fun cp => cp == 0x4e00) ([97, 98] ++ [0x4e00]) (0, 0)
          = (3 - 1 + 1 + 2, 0) ∧
        (∀ o r, (displayLoop 3 (fun cp => cp == 0x4e00) [0x4e00] (o, r)).1
          = if (o + 1) % 3 = 0 then o + 3 else o + 2) ∧
        _getDisplayPos 3 (fun cp => cp == 0x4e00) ([97, 98] ++ [0x4e00])
          = ⟨(3 + 2) % 3, (3 + 2) / 3⟩) :=
  ⟨⟨by decide, by decide, by decide, by decide, by decide⟩,
    wide_codepoint_wrap_padding 3 (fun cp => cp == 0x4e00) [97, 98] 0x4e00
      (by decide) (by decide) (by decide) (by decide) (by decide)⟩

theorem edit_ops_invariant_witness :
    WF (initialState 30 ['>']) ∧
      (WF (applyOp (initialState 30 ['>']) EditOp.deleteLeft) ∧
        (applyOp (initialState 30 ['>']) EditOp.deleteLeft).cursor
          ≤ (applyOp (initialState 30 ['>']) EditOp.deleteLeft).line.length ∧
        (∀ x, (_moveCursor (initialState 30 ['>']) x).cursor
          ≤ (_moveCursor (initialState 30 ['>']) x).line.length)) :=
  ⟨by decide,
    edit_ops_preserve_cursor_invariant (initialState 30 ['>'])
      EditOp.deleteLeft (by decide)⟩

end ReactTerm
